import Mathlib

/-!
Verification of the translation-diff batch tool (src/main.py).

The program scans a directory for `.jar` archives, and for each archive
extracts the localization entry ending in `en_us.json` and the one ending in
`<target_lang>.json`, writes both verbatim into `output/<modId>/`, computes
the English keys missing from the target mapping, writes them to `diff.json`
when non-empty and removes the whole `<modId>/` directory when empty.

Shallow embedding used below:
  * a parsed JSON object is a `List (String × String)` in its JSON iteration
    order (Python dicts iterate in insertion order, keys are unique);
  * an archive entry (`zipfile` member) is a `JarEntry`: its name, its raw
    bytes, and the result of `json.loads` on those bytes (`PyExcept`, with
    `raise` standing for a Python exception carrying `str(e)`);
  * opening an archive yields `PyExcept (List JarEntry)`: `raise` models
    `zipfile.ZipFile` failing on a corrupt or unreadable file;
  * `os.makedirs(mod_output_dir, exist_ok=True)` (line 69) yields
    `PyExcept Unit`: it can raise (a permission error, or `FileExistsError`
    when a regular file occupies the path — `exist_ok` does not suppress
    that), and it runs before the `try` of line 74, so its exception escapes
    `process_jar_file` and aborts the batch loop through the batch-level
    handler of `process_all_jars`;
  * the filesystem state of `output/<modId>/` is
    `Option (List (String × FileData))`: `none` means the directory does not
    exist (never created or removed by `shutil.rmtree`), `some files` means
    it exists and holds exactly the named files;
  * logging is a list of `LogEvent`s (the messages mirror the f-strings of
    the source);
  * Python `str.endswith` is `pyEndsWith` (a character-level suffix test;
    the builtin `String.endsWith` is avoided only because its well-founded
    recursion does not reduce inside the kernel).
-/

/-- Result of a Python expression that can raise: `ok` a value, or `raise`
with the exception text `str(e)`. -/
inductive PyExcept (α : Type) where
  | ok (val : α)
  | raise (msg : String)
deriving DecidableEq, Repr

/-- One member of the ZIP archive: its path inside the archive, the raw bytes
`jar.read` returns for it, and what `json.loads` yields on those bytes. -/
structure JarEntry where
  name : String
  content : List Nat
  parsed : PyExcept (List (String × String))
deriving DecidableEq, Repr

/-- Content of one file written into `output/<modId>/`: raw bytes (written
with mode `wb`) or text (the `diff.json` serialization, written with mode
`w`). -/
inductive FileData where
  | bytes (bs : List Nat)
  | text (s : String)
deriving DecidableEq, Repr

/-- One logger call, by level. -/
inductive LogEvent where
  | info (msg : String)
  | warning (msg : String)
  | error (msg : String)
deriving DecidableEq, Repr

/-- Python `str.endswith(suffix)` (case-sensitive, literal). -/
def pyEndsWith (s suffix : String) : Bool :=
  suffix.data.isSuffixOf s.data

/-- Python `os.path.basename` for POSIX paths: the part after the last `/`. -/
def basename (p : String) : String :=
  String.mk (p.data.foldl (fun acc c => if c = '/' then [] else acc ++ [c]) [])

/-- Index of the last `.` in a character list, if any. -/
def lastDotIdx (cs : List Char) : Option Nat :=
  cs.enum.foldl (fun acc ic => if ic.2 = '.' then some ic.1 else acc) none

/-- Python `os.path.splitext(name)[0]` for a basename: cut at the last dot,
except when every character before that dot is itself a dot (a leading-dot
name such as `.hidden` keeps its extension). -/
def splitextBase (s : String) : String :=
  match lastDotIdx s.data with
  | none => s
  | some i => if (s.data.take i).all (fun c => c = '.') then s else String.mk (s.data.take i)

/-- Python `os.path.join(a, b)` for the shapes the program uses (POSIX, `b`
relative): append a separator unless `a` already ends with one or is empty. -/
def osJoin (a b : String) : String :=
  if a = "" then b
  else if pyEndsWith a "/" then a ++ b
  else a ++ "/" ++ b

/-- Python `key in mapping` on a parsed JSON object. -/
def containsKey (m : List (String × String)) (k : String) : Bool :=
  m.any (fun kv => kv.1 == k)

/-- Lines 118-121 of src/main.py: the loop
`for key, value in en_us_data.items(): if key not in target_lang_data:
missing_translations[key] = value`, building the missing-translations
mapping in the iteration order of the base mapping. -/
def diffMap (base target : List (String × String)) : List (String × String) :=
  base.foldl (fun acc kv => if containsKey target kv.1 then acc else acc ++ [kv]) []

/-- Loop body of lines 84-88 of src/main.py: `if file_path.endswith` sets the
English slot, `elif file_path.endswith` sets the target slot, otherwise the
accumulator is unchanged. -/
def scanStep (targetLang : String) (acc : Option String × Option String) (n : String) :
    Option String × Option String :=
  if pyEndsWith n "en_us.json" then (some n, acc.2)
  else if pyEndsWith n (targetLang ++ ".json") then (acc.1, some n)
  else acc

/-- Lines 84-88 of src/main.py: the single scan over `jar.namelist()` that
records the entry whose name ends with `en_us.json` and, through `elif`, the
entry whose name ends with `<target_lang>.json`; a later match overwrites an
earlier one. Returns `(en_us_path, target_lang_path)`. -/
def scanEntries (targetLang : String) (names : List String) : Option String × Option String :=
  names.foldl (scanStep targetLang) (none, none)

/-- Python `jar.read(name)`: `zipfile` resolves a member name through its
`NameToInfo` dictionary, which is filled in listing order so a duplicate name
keeps the last entry. `none` models the `KeyError` raised for a missing
name. -/
def readEntry (entries : List JarEntry) (name : String) : Option JarEntry :=
  (entries.filter (fun e => e.name == name)).getLast?

/-- Hexadecimal digit character (lowercase), as `json.encoder` prints them. -/
def hexDigit (n : Nat) : Char :=
  if n < 10 then Char.ofNat (48 + n) else Char.ofNat (87 + n)

/-- Four-digit lowercase hex rendering used in `\uXXXX` escapes. -/
def hex4 (n : Nat) : String :=
  String.mk [hexDigit (n / 4096 % 16), hexDigit (n / 256 % 16), hexDigit (n / 16 % 16),
    hexDigit (n % 16)]

/-- Escaping of one character by `json.dump(..., ensure_ascii=False)`: only
the quote, the backslash and control characters below 0x20 are escaped
(with the short forms for backspace, form feed, newline, carriage return and
tab); every other character, in particular every non-ASCII character, is
emitted literally. -/
def escapeJsonChar (c : Char) : String :=
  if c = '"' then "\\\""
  else if c = '\\' then "\\\\"
  else if c = '\n' then "\\n"
  else if c = '\r' then "\\r"
  else if c = '\t' then "\\t"
  else if c = '\x08' then "\\b"
  else if c = '\x0c' then "\\f"
  else if c.toNat < 32 then "\\u" ++ hex4 c.toNat
  else String.mk [c]

/-- JSON string literal as `json.dump(..., ensure_ascii=False)` writes it. -/
def quoteJson (s : String) : String :=
  "\"" ++ String.join (s.data.map escapeJsonChar) ++ "\""

/-- Line 128 of src/main.py: `json.dump(missing_translations, f,
ensure_ascii=False, indent=2)` on a flat string-to-string object: two-space
indentation, items separated by a comma and a newline, `": "` between key and
value, and `\x7b\x7d` for the empty object. -/
def dumpJson (m : List (String × String)) : String :=
  if m.isEmpty then "\x7b\x7d"
  else
    "\x7b\n"
      ++ String.intercalate ",\n"
        (m.map (fun kv => "  " ++ quoteJson kv.1 ++ ": " ++ quoteJson kv.2))
      ++ "\n\x7d"

/-- Filesystem state of `output/<modId>/` together with the log lines emitted
inside the `with zipfile.ZipFile(...)` block, and the exception (if any) that
escaped the block to the `except` clause of `process_jar_file`. -/
structure TryOutcome where
  dir : Option (List (String × FileData))
  logs : List LogEvent
  err : Option String
deriving DecidableEq, Repr

/-- Lines 90-135 of src/main.py: the body of the `with` block once the suffix
scan has produced `(en_us_path, target_lang_path) = (enOpt, tOpt)`. The
directory state starts at `some []` (line 69 created an empty directory).
Each branch records the files written so far at the moment it finishes or
raises, the log calls it made, and the exception it raised if any:
  * no English entry: warning, `shutil.rmtree` (dir becomes `none`), return;
  * `jar.read` misses (unreachable for a scanned name): `KeyError` raised
    before any write;
  * English bytes are written verbatim before `json.loads(en_us_content)`,
    so an English parse failure leaves `en_us.json` on disk;
  * target bytes are written verbatim before `json.loads(target_lang_content)`;
  * the diff of the two parsed mappings is written to `diff.json` when it is
    non-empty, and the whole directory is removed when it is empty;
  * no target entry: only `en_us.json` remains, with a warning. -/
def processEntries (jarName modName targetLang : String) (entries : List JarEntry)
    (enOpt tOpt : Option String) : TryOutcome :=
  match enOpt with
  | none =>
      { dir := none,
        logs := [LogEvent.warning ("en_us.json not found in " ++ jarName
          ++ ". Skipping this mod.")],
        err := none }
  | some enPath =>
      match readEntry entries enPath with
      | none =>
          { dir := some [],
            logs := [LogEvent.info ("Extracting " ++ enPath)],
            err := some ("There is no item named " ++ enPath ++ " in the archive") }
      | some enEntry =>
          match enEntry.parsed with
          | PyExcept.raise msg =>
              { dir := some [("en_us.json", FileData.bytes enEntry.content)],
                logs := [LogEvent.info ("Extracting " ++ enPath)],
                err := some msg }
          | PyExcept.ok enData =>
              match tOpt with
              | none =>
                  { dir := some [("en_us.json", FileData.bytes enEntry.content)],
                    logs := [LogEvent.info ("Extracting " ++ enPath),
                      LogEvent.warning (targetLang ++ ".json not found in " ++ jarName
                        ++ ". Only extracted en_us.json."),
                      LogEvent.info ("Finished processing " ++ modName)],
                    err := none }
              | some tPath =>
                  match readEntry entries tPath with
                  | none =>
                      { dir := some [("en_us.json", FileData.bytes enEntry.content)],
                        logs := [LogEvent.info ("Extracting " ++ enPath),
                          LogEvent.info ("Extracting " ++ tPath)],
                        err := some ("There is no item named " ++ tPath
                          ++ " in the archive") }
                  | some tEntry =>
                      match tEntry.parsed with
                      | PyExcept.raise msg =>
                          { dir := some [("en_us.json", FileData.bytes enEntry.content),
                              (targetLang ++ ".json", FileData.bytes tEntry.content)],
                            logs := [LogEvent.info ("Extracting " ++ enPath),
                              LogEvent.info ("Extracting " ++ tPath)],
                            err := some msg }
                      | PyExcept.ok tData =>
                          if (diffMap enData tData).isEmpty then
                            { dir := none,
                              logs := [LogEvent.info ("Extracting " ++ enPath),
                                LogEvent.info ("Extracting " ++ tPath),
                                LogEvent.info
                                  "All keys are translated. Removing mod folder as no diff needed.",
                                LogEvent.info ("Finished processing " ++ modName)],
                              err := none }
                          else
                            { dir := some [("en_us.json", FileData.bytes enEntry.content),
                                (targetLang ++ ".json", FileData.bytes tEntry.content),
                                ("diff.json", FileData.text (dumpJson (diffMap enData tData)))],
                              logs := [LogEvent.info ("Extracting " ++ enPath),
                                LogEvent.info ("Extracting " ++ tPath),
                                LogEvent.info ("Found " ++ toString (diffMap enData tData).length
                                  ++ " missing translations. Writing diff.json"),
                                LogEvent.info ("Finished processing " ++ modName)],
                              err := none }

/-- The whole `try` body of `process_jar_file` for an archive that did open:
scan the entry names, then run the block above on the two scan results. -/
def processJarTry (jarName modName targetLang : String) (entries : List JarEntry) :
    TryOutcome :=
  processEntries jarName modName targetLang entries
    (scanEntries targetLang (entries.map JarEntry.name)).1
    (scanEntries targetLang (entries.map JarEntry.name)).2

/-- Line 138 of src/main.py: the `except` clause turns an escaped exception
into one error log line and swallows it. -/
def errorLogs (jarPath : String) : Option String → List LogEvent
  | some msg => [LogEvent.error ("Error processing " ++ jarPath ++ ": " ++ msg)]
  | none => []

/-- Final state of one archive's processing: the `output/<modId>/` directory
(`none` when it does not exist) and every log line emitted. -/
structure ProcOutcome where
  dir : Option (List (String × FileData))
  logs : List LogEvent
deriving DecidableEq, Repr

/-- Lines 71-138 of src/main.py: the part of `process_jar_file` that runs
once the `os.makedirs` of line 69 has succeeded — the start log line, then
the `try`/`except` around the `with` block. `jarOpen` is what
`zipfile.ZipFile(jar_path)` yields: the entry list, or an exception for a
corrupt or unreadable archive. The directory `output/<modId>/` already
exists (empty) here, so an open failure leaves `some []` behind; any
exception from the `try` body is logged and never re-raised, so this part
never raises. -/
def processJarAfterMkdir (jarPath targetLang : String)
    (jarOpen : PyExcept (List JarEntry)) : ProcOutcome :=
  match jarOpen with
  | PyExcept.raise msg =>
      { dir := some [],
        logs := [LogEvent.info ("Processing mod: " ++ splitextBase (basename jarPath)),
          LogEvent.error ("Error processing " ++ jarPath ++ ": " ++ msg)] }
  | PyExcept.ok entries =>
      { dir := (processJarTry (basename jarPath) (splitextBase (basename jarPath))
          targetLang entries).dir,
        logs := [LogEvent.info ("Processing mod: " ++ splitextBase (basename jarPath))]
          ++ (processJarTry (basename jarPath) (splitextBase (basename jarPath))
            targetLang entries).logs
          ++ errorLogs jarPath
            (processJarTry (basename jarPath) (splitextBase (basename jarPath))
              targetLang entries).err }

/-- Lines 55-138 of src/main.py, `process_jar_file(jar_path, output_dir,
target_lang)`. `mkdirRes` is the outcome of
`os.makedirs(mod_output_dir, exist_ok=True)` at line 69: that call runs
before the `try` of line 74, so when it raises, the exception escapes the
function — nothing of this archive is logged or written and the caller sees
the exception. Only after a successful directory creation does the body run,
and the body never raises (its `except` clause swallows everything). -/
def process_jar_file (jarPath targetLang : String) (mkdirRes : PyExcept Unit)
    (jarOpen : PyExcept (List JarEntry)) : PyExcept ProcOutcome :=
  match mkdirRes with
  | PyExcept.raise msg => PyExcept.raise msg
  | PyExcept.ok _ => PyExcept.ok (processJarAfterMkdir jarPath targetLang jarOpen)

/-- The input directory as `os.path.isdir` and `os.listdir` see it: whether
the path is a directory, and its immediate children (in enumeration order)
when it is. -/
structure InputDir where
  isDir : Bool
  children : List String
deriving DecidableEq, Repr

/-- Result of one batch run: the batch-level log lines, and one
`(jar_path, outcome)` per processed archive in processing order (each
outcome carries its own per-archive log lines). -/
structure BatchResult where
  logs : List LogEvent
  results : List (String × ProcOutcome)
deriving DecidableEq, Repr

/-- Lines 171-178 of src/main.py: the `for` loop over the jar files, run
inside the batch-level `try` of line 151. Each iteration calls
`process_jar_file`; an exception escaping it (a directory-creation failure)
aborts the loop at that archive. Returns the `(jar_path, outcome)` pairs
produced before the abort, in order, and the escaped exception if any. -/
def runJars (targetLang : String) (mkdir : String → PyExcept Unit)
    (jarOpen : String → PyExcept (List JarEntry)) :
    List String → List (String × ProcOutcome) × Option String
  | [] => ([], none)
  | p :: rest =>
      match process_jar_file p targetLang (mkdir p) (jarOpen p) with
      | PyExcept.ok outcome =>
          ((p, outcome) :: (runJars targetLang mkdir jarOpen rest).1,
           (runJars targetLang mkdir jarOpen rest).2)
      | PyExcept.raise msg => ([], some msg)

/-- Lines 140-186 of src/main.py, `process_all_jars(input_dir, output_dir,
target_lang)` as the CLI calls it (no progress or status variables): validate
that the input path is a directory, list its immediate children whose name
ends with the literal case-sensitive `.jar`, warn and stop when there are
none, otherwise run `process_jar_file` on each in listing order. `mkdir`
maps each jar path to the outcome of creating its output directory, and
`jarOpen` to what opening that archive yields. The whole body sits in a
`try` whose `except` (lines 183-186) catches an exception escaping
`process_jar_file`, logs `Error during processing: ...` and returns — the
remaining archives are not processed; `All processing completed.` is logged
only when the loop finished. -/
def process_all_jars (inputDir : String) (d : InputDir) (mkdir : String → PyExcept Unit)
    (jarOpen : String → PyExcept (List JarEntry)) (targetLang : String) : BatchResult :=
  if d.isDir = false then
    { logs := [LogEvent.error ("The input path " ++ inputDir ++ " is not a directory.")],
      results := [] }
  else
    if (d.children.filter (fun file => pyEndsWith file ".jar")).isEmpty then
      { logs := [LogEvent.info ("Scanning for JAR files in " ++ inputDir),
          LogEvent.info ("Target language: " ++ targetLang),
          LogEvent.warning ("No JAR files found in " ++ inputDir)],
        results := [] }
    else
      { logs := [LogEvent.info ("Scanning for JAR files in " ++ inputDir),
          LogEvent.info ("Target language: " ++ targetLang),
          LogEvent.info ("Found "
            ++ toString (d.children.filter (fun file => pyEndsWith file ".jar")).length
            ++ " JAR files. Starting processing...")]
          ++ (match (runJars targetLang mkdir jarOpen
                ((d.children.filter (fun file => pyEndsWith file ".jar")).map
                  (fun file => osJoin inputDir file))).2 with
              | none => [LogEvent.info "All processing completed."]
              | some msg => [LogEvent.error ("Error during processing: " ++ msg)]),
        results := (runJars targetLang mkdir jarOpen
            ((d.children.filter (fun file => pyEndsWith file ".jar")).map
              (fun file => osJoin inputDir file))).1 }

/-- Parsed CLI arguments of src/main.py lines 404-409: the positional input
directory, `--lang` (default `ru_ru`) and the `--gui` flag. -/
structure CliArgs where
  input_dir : String
  lang : String
  gui : Bool
deriving DecidableEq, Repr

/-- Lines 401-424 of src/main.py, `main_cli()` after successful argument
parsing. The function never calls `sys.exit` and `process_all_jars` returns
normally on every input (its own `try` swallows every error, including a
directory-creation failure escaping `process_jar_file`), so the interpreter
process always finishes with exit status 0; the first component is that exit
status. The second component is the batch result (`none` when the `--gui`
branch hands off to the GUI instead). -/
def main_cli (args : CliArgs) (d : InputDir) (mkdir : String → PyExcept Unit)
    (jarOpen : String → PyExcept (List JarEntry)) : Nat × Option BatchResult :=
  if args.gui then (0, none)
  else (0, some (process_all_jars args.input_dir d mkdir jarOpen args.lang))

theorem diffMap_gen (target : List (String × String)) :
    ∀ (base acc : List (String × String)),
      base.foldl (fun acc kv => if containsKey target kv.1 then acc else acc ++ [kv]) acc
        = acc ++ base.filter (fun kv => !(containsKey target kv.1)) := by
  intro base
  induction base with
  | nil => intro acc; simp
  | cons kv rest ih =>
      intro acc
      cases h : containsKey target kv.1 with
      | true => simp [List.foldl_cons, List.filter_cons, h, ih]
      | false => simp [List.foldl_cons, List.filter_cons, h, ih]

theorem diffMap_eq_filter (base target : List (String × String)) :
    diffMap base target = base.filter (fun kv => !(containsKey target kv.1)) := by
  unfold diffMap
  rw [diffMap_gen]
  simp

theorem containsKey_iff (m : List (String × String)) (k : String) :
    containsKey m k = true ↔ ∃ kv ∈ m, kv.1 = k := by
  unfold containsKey
  rw [List.any_eq_true]
  simp only [beq_iff_eq]

/-- Claim C1: the translation diff returns exactly the entries of the base
mapping whose key is absent from the target mapping: its keys are the keys of
`base` not in `target` (in base order), every returned entry is an entry of
`base` (so its value is the base value), the result is a sublist of `base`
(base iteration order), `diffMap base [] = base`, and `diffMap [] target = []`
for any target. -/
theorem diffMap_missing_translations_spec (base target : List (String × String)) :
    ((diffMap base target).map Prod.fst
        = (base.map Prod.fst).filter (fun k => !(containsKey target k)))
    ∧ (∀ k, k ∈ (diffMap base target).map Prod.fst
        ↔ (k ∈ base.map Prod.fst ∧ ¬ k ∈ target.map Prod.fst))
    ∧ (∀ kv, kv ∈ diffMap base target → kv ∈ base)
    ∧ List.Sublist (diffMap base target) base
    ∧ diffMap base [] = base
    ∧ diffMap [] target = [] := by
  refine ⟨?_, ?_, ?_, ?_, ?_, rfl⟩
  · rw [diffMap_eq_filter]
    induction base with
    | nil => simp
    | cons kv rest ih =>
        cases h : containsKey target kv.1 with
        | true => simp [List.filter_cons, h, ih]
        | false => simp [List.filter_cons, h, ih]
  · intro k
    rw [diffMap_eq_filter]
    constructor
    · intro h
      obtain ⟨kv, hkv, hk⟩ := List.mem_map.mp h
      subst hk
      obtain ⟨hmem, hnot⟩ := List.mem_filter.mp hkv
      refine ⟨List.mem_map.mpr ⟨kv, hmem, rfl⟩, fun hk => ?_⟩
      obtain ⟨kv2, hkv2, heq⟩ := List.mem_map.mp hk
      have : containsKey target kv.1 = true := (containsKey_iff target kv.1).mpr ⟨kv2, hkv2, heq⟩
      simp [this] at hnot
    · rintro ⟨hin, hnot⟩
      obtain ⟨kv, hmem, hk⟩ := List.mem_map.mp hin
      subst hk
      refine List.mem_map.mpr ⟨kv, List.mem_filter.mpr ⟨hmem, ?_⟩, rfl⟩
      cases h : containsKey target kv.1 with
      | true =>
          obtain ⟨kv2, hkv2, heq⟩ := (containsKey_iff target kv.1).mp h
          exact absurd (List.mem_map.mpr ⟨kv2, hkv2, heq⟩) hnot
      | false => rfl
  · intro kv h
    rw [diffMap_eq_filter] at h
    exact (List.mem_filter.mp h).1
  · rw [diffMap_eq_filter]
    exact List.filter_sublist base
  · rw [diffMap_eq_filter]
    have : ∀ kv : String × String, containsKey [] kv.1 = false := fun _ => rfl
    simp [this]

theorem getLast?_cons_orElse {α : Type} (a : α) (l : List α) :
    (a :: l).getLast? = (l.getLast? <|> some a) := by
  induction l generalizing a with
  | nil => rfl
  | cons b l ih =>
      rw [List.getLast?_cons_cons, ih b]
      cases h : l.getLast? <;> simp

theorem mem_of_getLast?_eq {α : Type} {l : List α} {a : α} (h : l.getLast? = some a) :
    a ∈ l := by
  induction l with
  | nil => simp at h
  | cons b l ih =>
      rw [getLast?_cons_orElse] at h
      cases hl : l.getLast? with
      | none => rw [hl] at h; simp at h; simp [h]
      | some x =>
          rw [hl] at h; simp at h
          subst h
          exact List.mem_cons_of_mem _ (ih hl)

theorem scanEntries_gen (targetLang : String) :
    ∀ (names : List String) (a b : Option String),
      names.foldl (scanStep targetLang) (a, b)
        = (((names.filter (fun n => pyEndsWith n "en_us.json")).getLast? <|> a),
           ((names.filter (fun n =>
               !(pyEndsWith n "en_us.json") && pyEndsWith n (targetLang ++ ".json"))).getLast?
             <|> b)) := by
  intro names
  induction names with
  | nil => intro a b; simp
  | cons n rest ih =>
      intro a b
      rw [List.foldl_cons]
      cases hEn : pyEndsWith n "en_us.json" with
      | true =>
          have hs : scanStep targetLang (a, b) n = (some n, b) := by
            simp [scanStep, hEn]
          rw [hs, ih (some n) b]
          simp only [List.filter_cons, hEn, Bool.not_true, Bool.false_and,
            Bool.false_eq_true, if_false, if_true, getLast?_cons_orElse]
          cases h : (rest.filter (fun n => pyEndsWith n "en_us.json")).getLast? <;> simp [h]
      | false =>
          cases hT : pyEndsWith n (targetLang ++ ".json") with
          | true =>
              have hs : scanStep targetLang (a, b) n = (a, some n) := by
                simp [scanStep, hEn, hT]
              rw [hs, ih a (some n)]
              simp only [List.filter_cons, hEn, hT, Bool.not_false, Bool.true_and,
                Bool.false_eq_true, if_false, if_true, getLast?_cons_orElse]
              cases h : (rest.filter (fun n =>
                  !(pyEndsWith n "en_us.json")
                    && pyEndsWith n (targetLang ++ ".json"))).getLast? <;> simp [h]
          | false =>
              have hs : scanStep targetLang (a, b) n = (a, b) := by
                simp [scanStep, hEn, hT]
              rw [hs, ih a b]
              simp only [List.filter_cons, hEn, hT, Bool.not_false, Bool.true_and,
                Bool.false_eq_true, if_false]

/-- The scan keeps, for each slot, the last entry in listing order that its
own test accepts: for the English slot every name ending with `en_us.json`,
for the target slot every name that ends with `<target_lang>.json` but not
with `en_us.json` (those are taken by the `if` branch first). -/
theorem scanEntries_eq (targetLang : String) (names : List String) :
    scanEntries targetLang names
      = ((names.filter (fun n => pyEndsWith n "en_us.json")).getLast?,
         (names.filter (fun n =>
             !(pyEndsWith n "en_us.json")
               && pyEndsWith n (targetLang ++ ".json"))).getLast?) := by
  unfold scanEntries
  rw [scanEntries_gen]
  cases h1 : (names.filter (fun n => pyEndsWith n "en_us.json")).getLast? <;>
    cases h2 : (names.filter (fun n =>
        !(pyEndsWith n "en_us.json") && pyEndsWith n (targetLang ++ ".json"))).getLast? <;>
      simp [h1, h2]

theorem escapeJsonChar_nonascii (c : Char) (h : 128 ≤ c.toNat) :
    escapeJsonChar c = String.mk [c] := by
  unfold escapeJsonChar
  rw [if_neg, if_neg, if_neg, if_neg, if_neg, if_neg, if_neg, if_neg]
  · omega
  all_goals (intro hc; subst hc; revert h; decide)

theorem runJars_all_ok (targetLang : String) (mkdir : String → PyExcept Unit)
    (jarOpen : String → PyExcept (List JarEntry))
    (hmk : ∀ p, mkdir p = PyExcept.ok ()) :
    ∀ l : List String,
      runJars targetLang mkdir jarOpen l
        = (l.map (fun p => (p, processJarAfterMkdir p targetLang (jarOpen p))), none) := by
  intro l
  induction l with
  | nil => rfl
  | cons p rest ih =>
      have hp : process_jar_file p targetLang (mkdir p) (jarOpen p)
          = PyExcept.ok (processJarAfterMkdir p targetLang (jarOpen p)) := by
        rw [hmk p]
        rfl
      simp [runJars, hp, ih]

theorem process_all_jars_results_fst (inputDir targetLang : String) (d : InputDir)
    (mkdir : String → PyExcept Unit) (jarOpen : String → PyExcept (List JarEntry))
    (h : d.isDir = true) (hmk : ∀ p, mkdir p = PyExcept.ok ()) :
    (process_all_jars inputDir d mkdir jarOpen targetLang).results.map Prod.fst
      = (d.children.filter (fun f => pyEndsWith f ".jar")).map (osJoin inputDir) := by
  unfold process_all_jars
  rw [h]
  cases hj : (d.children.filter (fun f => pyEndsWith f ".jar")).isEmpty with
  | true =>
      have : d.children.filter (fun f => pyEndsWith f ".jar") = [] :=
        List.isEmpty_iff.mp hj
      simp [hj, this]
  | false =>
      simp [hj, runJars_all_ok targetLang mkdir jarOpen hmk, List.map_map, Function.comp]

theorem scan_en_us_snd_none (names : List String) :
    (scanEntries "en_us" names).2 = none := by
  rw [scanEntries_eq]
  have hfil : names.filter (fun n =>
      !(pyEndsWith n "en_us.json") && pyEndsWith n ("en_us" ++ ".json")) = [] := by
    rw [List.filter_eq_nil_iff]
    intro a _
    have hsfx : ("en_us" ++ ".json" : String) = "en_us.json" := by decide
    rw [hsfx]
    cases h : pyEndsWith a "en_us.json" <;> simp [h]
  rw [hfil]
  rfl

/-- Claim C10: an archive that cannot be opened at all still gets its output
directory: `os.makedirs` runs before `zipfile.ZipFile`, and the `except`
clause only logs, so processing a corrupt or unreadable archive (directory
creation succeeded, the open raised) leaves an empty `output/<modId>/`
directory behind, together with exactly the processing-start log line and
the error log line, and raises nothing. -/
theorem corrupt_archive_leaves_empty_dir (jarPath targetLang msg : String) :
    process_jar_file jarPath targetLang (PyExcept.ok ()) (PyExcept.raise msg)
      = PyExcept.ok
          { dir := some [],
            logs := [LogEvent.info ("Processing mod: " ++ splitextBase (basename jarPath)),
              LogEvent.error ("Error processing " ++ jarPath ++ ": " ++ msg)] } := rfl

/-- Claim C4 is false as stated: on an input path that is not a directory the
headless run exits with status 0, not 1. `process_all_jars` only logs the
error and returns, and `main_cli` never calls `sys.exit`. -/
theorem main_cli_exit_status_counterexample :
    (main_cli ⟨"/missing", "ru_ru", false⟩ ⟨false, []⟩
        (fun _ => (PyExcept.ok () : PyExcept Unit))
        (fun _ => (PyExcept.raise "e" : PyExcept (List JarEntry)))).1 = 0
    ∧ ¬ (main_cli ⟨"/missing", "ru_ru", false⟩ ⟨false, []⟩
        (fun _ => (PyExcept.ok () : PyExcept Unit))
        (fun _ => (PyExcept.raise "e" : PyExcept (List JarEntry)))).1 = 1 := by
  constructor
  · rfl
  · decide

/-- Claim C4 (amended): when run headless the process always exits with
status 0 — also when the input path is not a directory, in which case it
performs no work (it only logs the error and processes nothing), and also
when zero archives are found. -/
theorem main_cli_always_exits_zero (args : CliArgs) (d : InputDir)
    (mkdir : String → PyExcept Unit) (jarOpen : String → PyExcept (List JarEntry)) :
    (main_cli args d mkdir jarOpen).1 = 0
    ∧ (args.gui = false → d.isDir = false →
        (main_cli args d mkdir jarOpen).2
          = some { logs := [LogEvent.error ("The input path " ++ args.input_dir
              ++ " is not a directory.")], results := [] }) := by
  constructor
  · unfold main_cli
    cases h : args.gui <;> simp [h]
  · intro hg hd
    unfold main_cli
    rw [hg]
    unfold process_all_jars
    rw [hd]
    simp

/-- Claim C6 is false as stated for the target slot: with target language
`en_us` both listed names match the target suffix `en_us.json`, yet no entry
at all is retained as the target match (the `elif` never runs because the
English test claims every such name), instead of the last matching entry. -/
theorem scan_last_match_counterexample :
    pyEndsWith "mods/b/en_us.json" ("en_us" ++ ".json") = true
    ∧ pyEndsWith "mods/a/en_us.json" ("en_us" ++ ".json") = true
    ∧ (scanEntries "en_us" ["mods/a/en_us.json", "mods/b/en_us.json"]).2 = none := by
  decide

/-- Claim C6 (amended): of several entries matching a slot's own test, the
one encountered last in listing order is retained: for the English slot the
last name ending with `en_us.json`, for the target slot the last name that
ends with `<targetLang>.json` and does not also end with `en_us.json`
(a name ending with `en_us.json` is taken by the `if` branch and is never
retained as the target match). -/
theorem scan_retains_last_match (targetLang : String) (names : List String) :
    scanEntries targetLang names
      = ((names.filter (fun n => pyEndsWith n "en_us.json")).getLast?,
         (names.filter (fun n =>
             !(pyEndsWith n "en_us.json")
               && pyEndsWith n (targetLang ++ ".json"))).getLast?) :=
  scanEntries_eq targetLang names

theorem scan_fst_none_of_no_english (targetLang : String) (entries : List JarEntry)
    (h : entries.all (fun e => !(pyEndsWith e.name "en_us.json")) = true) :
    (scanEntries targetLang (entries.map JarEntry.name)).1 = none := by
  rw [scanEntries_eq]
  have hfil : (entries.map JarEntry.name).filter (fun n => pyEndsWith n "en_us.json") = [] := by
    rw [List.filter_eq_nil_iff]
    intro a ha
    obtain ⟨e, he, rfl⟩ := List.mem_map.mp ha
    have he2 := List.all_eq_true.mp h e he
    simp at he2
    simp [he2]
  rw [hfil]
  rfl

/-- Claim C5: for an archive whose entry list has no name ending with
`en_us.json`, processing logs a warning naming the archive, removes the
output directory it created, and returns normally: the outcome is exactly
`dir = none` with the start log line and that warning. -/
theorem no_english_entry_spec (jarPath targetLang : String) (entries : List JarEntry)
    (h : entries.all (fun e => !(pyEndsWith e.name "en_us.json")) = true) :
    process_jar_file jarPath targetLang (PyExcept.ok ()) (PyExcept.ok entries)
      = PyExcept.ok
          { dir := none,
            logs := [LogEvent.info ("Processing mod: " ++ splitextBase (basename jarPath)),
              LogEvent.warning ("en_us.json not found in " ++ basename jarPath
                ++ ". Skipping this mod.")] } := by
  have hscan := scan_fst_none_of_no_english targetLang entries h
  simp only [process_jar_file, processJarAfterMkdir, processJarTry]
  rw [hscan]
  simp [processEntries, errorLogs]

/-- Witness for C5 at a concrete archive holding only a Russian entry. -/
theorem no_english_entry_spec_witness :
    ([⟨"assets/mymod/lang/ru_ru.json", [1, 2, 3], PyExcept.ok []⟩]
        : List JarEntry).all (fun e => !(pyEndsWith e.name "en_us.json")) = true
    ∧ process_jar_file "mods/mymod-1.0.jar" "ru_ru" (PyExcept.ok ())
        (PyExcept.ok [⟨"assets/mymod/lang/ru_ru.json", [1, 2, 3], PyExcept.ok []⟩])
      = PyExcept.ok
          { dir := none,
            logs := [LogEvent.info ("Processing mod: "
                ++ splitextBase (basename "mods/mymod-1.0.jar")),
              LogEvent.warning ("en_us.json not found in " ++ basename "mods/mymod-1.0.jar"
                ++ ". Skipping this mod.")] } :=
  ⟨by decide,
   no_english_entry_spec "mods/mymod-1.0.jar" "ru_ru"
     [⟨"assets/mymod/lang/ru_ru.json", [1, 2, 3], PyExcept.ok []⟩] (by decide)⟩

/-- Claim C7: the batch runner selects exactly the immediate children of the
input directory whose name ends with the literal, case-sensitive `.jar`
(membership in the selection is equivalent to being a child with that
suffix), processes them in listing order, and when the selection is empty it
logs a warning and returns with no archive processed. -/
theorem jar_selection_spec (inputDir targetLang : String) (d : InputDir)
    (mkdir : String → PyExcept Unit) (jarOpen : String → PyExcept (List JarEntry))
    (h : d.isDir = true) (hmk : ∀ p, mkdir p = PyExcept.ok ()) :
    ((process_all_jars inputDir d mkdir jarOpen targetLang).results.map Prod.fst
        = (d.children.filter (fun f => pyEndsWith f ".jar")).map (osJoin inputDir))
    ∧ (∀ f, f ∈ d.children.filter (fun f => pyEndsWith f ".jar")
        ↔ (f ∈ d.children ∧ pyEndsWith f ".jar" = true))
    ∧ (d.children.filter (fun f => pyEndsWith f ".jar") = [] →
        (process_all_jars inputDir d mkdir jarOpen targetLang).results = []
        ∧ (process_all_jars inputDir d mkdir jarOpen targetLang).logs
            = [LogEvent.info ("Scanning for JAR files in " ++ inputDir),
               LogEvent.info ("Target language: " ++ targetLang),
               LogEvent.warning ("No JAR files found in " ++ inputDir)]) := by
  refine ⟨process_all_jars_results_fst inputDir targetLang d mkdir jarOpen h hmk, ?_, ?_⟩
  · intro f
    exact List.mem_filter
  · intro hnil
    unfold process_all_jars
    rw [h, hnil]
    simp

/-- Witness for C7 on a directory whose children carry no lowercase `.jar`
suffix (one uppercase `.JAR`, one text file): nothing is selected. -/
theorem jar_selection_spec_witness :
    (⟨true, ["Mod.JAR", "readme.txt"]⟩ : InputDir).isDir = true
    ∧ (∀ p : String, (fun _ => (PyExcept.ok () : PyExcept Unit)) p = PyExcept.ok ())
    ∧ (((process_all_jars "mods" ⟨true, ["Mod.JAR", "readme.txt"]⟩
          (fun _ => (PyExcept.ok () : PyExcept Unit))
          (fun _ => (PyExcept.raise "e" : PyExcept (List JarEntry))) "ru_ru").results.map Prod.fst
        = ((["Mod.JAR", "readme.txt"].filter (fun f => pyEndsWith f ".jar")).map
            (osJoin "mods")))
    ∧ (∀ f, f ∈ ["Mod.JAR", "readme.txt"].filter (fun f => pyEndsWith f ".jar")
        ↔ (f ∈ ["Mod.JAR", "readme.txt"] ∧ pyEndsWith f ".jar" = true))
    ∧ (["Mod.JAR", "readme.txt"].filter (fun f => pyEndsWith f ".jar") = [] →
        (process_all_jars "mods" ⟨true, ["Mod.JAR", "readme.txt"]⟩
            (fun _ => (PyExcept.ok () : PyExcept Unit))
            (fun _ => (PyExcept.raise "e" : PyExcept (List JarEntry))) "ru_ru").results = []
        ∧ (process_all_jars "mods" ⟨true, ["Mod.JAR", "readme.txt"]⟩
            (fun _ => (PyExcept.ok () : PyExcept Unit))
            (fun _ => (PyExcept.raise "e" : PyExcept (List JarEntry))) "ru_ru").logs
            = [LogEvent.info ("Scanning for JAR files in " ++ "mods"),
               LogEvent.info ("Target language: " ++ "ru_ru"),
               LogEvent.warning ("No JAR files found in " ++ "mods")])) :=
  ⟨rfl, fun _ => rfl,
   jar_selection_spec "mods" "ru_ru" ⟨true, ["Mod.JAR", "readme.txt"]⟩
     (fun _ => (PyExcept.ok () : PyExcept Unit))
     (fun _ => (PyExcept.raise "e" : PyExcept (List JarEntry))) rfl (fun _ => rfl)⟩

/-- Claim C3 is false as stated: `os.makedirs` (line 69) runs before the
`try` (line 74), so a directory-creation failure is not caught inside the
per-archive processor — `process_jar_file` itself raises — and the batch
runner does not continue to the next archive. Here two archives are
selected, the first one's directory creation fails with a permission error,
and the batch stops with the outer handler's error log and no outcome at
all: the second archive is never processed. -/
theorem mkdir_failure_aborts_batch :
    process_jar_file "mods/a.jar" "ru_ru" (PyExcept.raise "Permission denied")
        (PyExcept.ok []) = PyExcept.raise "Permission denied"
    ∧ (["a.jar", "b.jar"].filter (fun f => pyEndsWith f ".jar")).map (osJoin "mods")
        = ["mods/a.jar", "mods/b.jar"]
    ∧ (process_all_jars "mods" ⟨true, ["a.jar", "b.jar"]⟩
          (fun p => if p = "mods/a.jar"
            then (PyExcept.raise "Permission denied" : PyExcept Unit)
            else PyExcept.ok ())
          (fun _ => (PyExcept.ok [] : PyExcept (List JarEntry))) "ru_ru").results = []
    ∧ (process_all_jars "mods" ⟨true, ["a.jar", "b.jar"]⟩
          (fun p => if p = "mods/a.jar"
            then (PyExcept.raise "Permission denied" : PyExcept Unit)
            else PyExcept.ok ())
          (fun _ => (PyExcept.ok [] : PyExcept (List JarEntry))) "ru_ru").logs
        = [LogEvent.info "Scanning for JAR files in mods",
           LogEvent.info "Target language: ru_ru",
           LogEvent.info "Found 2 JAR files. Starting processing...",
           LogEvent.error "Error during processing: Permission denied"] := by
  refine ⟨rfl, by decide, by decide, by decide⟩

/-- Claim C3 (amended): exceptions raised inside the `with` block of the
per-archive processor — archive open failure, member read, JSON parse — are
caught there, logged, and never escape, and when no directory creation fails
the batch reaches every selected archive; but an `os.makedirs` failure
(line 69, which runs before the `try` of line 74) escapes
`process_jar_file`, is caught only by the batch-level handler, and aborts
the loop: the failing archive and every archive after it produce no
outcome. -/
theorem per_archive_failure_contained (inputDir targetLang jarPath msg errMsg : String)
    (d : InputDir) (mkdir : String → PyExcept Unit)
    (jarOpen : String → PyExcept (List JarEntry)) (entries : List JarEntry)
    (rest : List String) :
    (d.isDir = true → (∀ p, mkdir p = PyExcept.ok ()) →
        (process_all_jars inputDir d mkdir jarOpen targetLang).results.map Prod.fst
          = (d.children.filter (fun f => pyEndsWith f ".jar")).map (osJoin inputDir))
    ∧ (jarOpen jarPath = PyExcept.raise msg →
        process_jar_file jarPath targetLang (PyExcept.ok ()) (jarOpen jarPath)
          = PyExcept.ok
              { dir := some [],
                logs := [LogEvent.info ("Processing mod: "
                    ++ splitextBase (basename jarPath)),
                  LogEvent.error ("Error processing " ++ jarPath ++ ": " ++ msg)] })
    ∧ ((processJarTry (basename jarPath) (splitextBase (basename jarPath)) targetLang
          entries).err = some errMsg →
        process_jar_file jarPath targetLang (PyExcept.ok ()) (PyExcept.ok entries)
          = PyExcept.ok
              { dir := (processJarTry (basename jarPath)
                  (splitextBase (basename jarPath)) targetLang entries).dir,
                logs := [LogEvent.info ("Processing mod: "
                    ++ splitextBase (basename jarPath))]
                  ++ (processJarTry (basename jarPath) (splitextBase (basename jarPath))
                    targetLang entries).logs
                  ++ [LogEvent.error ("Error processing " ++ jarPath ++ ": "
                    ++ errMsg)] })
    ∧ (mkdir jarPath = PyExcept.raise msg →
        process_jar_file jarPath targetLang (mkdir jarPath) (jarOpen jarPath)
          = PyExcept.raise msg
        ∧ runJars targetLang mkdir jarOpen (jarPath :: rest) = ([], some msg)) := by
  refine ⟨?_, ?_, ?_, ?_⟩
  · intro h hmk
    exact process_all_jars_results_fst inputDir targetLang d mkdir jarOpen h hmk
  · intro he
    rw [he]
    rfl
  · intro herr
    simp only [process_jar_file, processJarAfterMkdir]
    rw [herr]
    rfl
  · intro hm
    constructor
    · rw [hm]
      rfl
    · have hp : process_jar_file jarPath targetLang (mkdir jarPath) (jarOpen jarPath)
          = PyExcept.raise msg := by
        rw [hm]
        rfl
      simp [runJars, hp]

/-- Claim C2: when an archive has both an English and a target entry (and
both parse), `diff.json` is written if and only if the diff is non-empty —
its content is the `json.dump(..., ensure_ascii=False, indent=2)`
serialization of the diff, whose escaping leaves every non-ASCII character
literal — and when the diff is empty the whole `<modId>/` directory,
already-written `en_us.json` and target file included, is removed. -/
theorem diff_written_iff_missing (jarPath targetLang enP tP : String)
    (entries : List JarEntry) (enE tE : JarEntry) (baseM targetM : List (String × String))
    (hscan : scanEntries targetLang (entries.map JarEntry.name) = (some enP, some tP))
    (hre : readEntry entries enP = some enE)
    (hrt : readEntry entries tP = some tE)
    (hpe : enE.parsed = PyExcept.ok baseM)
    (hpt : tE.parsed = PyExcept.ok targetM) :
    (process_jar_file jarPath targetLang (PyExcept.ok ()) (PyExcept.ok entries)
        = PyExcept.ok (processJarAfterMkdir jarPath targetLang (PyExcept.ok entries)))
    ∧ (diffMap baseM targetM = [] →
        (processJarAfterMkdir jarPath targetLang (PyExcept.ok entries)).dir = none)
    ∧ (diffMap baseM targetM ≠ [] →
        (processJarAfterMkdir jarPath targetLang (PyExcept.ok entries)).dir
          = some [("en_us.json", FileData.bytes enE.content),
              (targetLang ++ ".json", FileData.bytes tE.content),
              ("diff.json", FileData.text (dumpJson (diffMap baseM targetM)))])
    ∧ (∀ c : Char, 128 ≤ c.toNat → escapeJsonChar c = String.mk [c]) := by
  have hbody : processJarTry (basename jarPath) (splitextBase (basename jarPath))
      targetLang entries
      = processEntries (basename jarPath) (splitextBase (basename jarPath))
          targetLang entries (some enP) (some tP) := by
    unfold processJarTry
    rw [hscan]
  refine ⟨rfl, ?_, ?_, fun c hc => escapeJsonChar_nonascii c hc⟩
  · intro hm
    simp only [processJarAfterMkdir, hbody, processEntries, hre, hrt, hpe, hpt]
    simp [hm]
  · intro hm
    have hne : (diffMap baseM targetM).isEmpty = false := by
      cases hd2 : diffMap baseM targetM with
      | nil => exact absurd hd2 hm
      | cons a l => rfl
    simp only [processJarAfterMkdir, hbody, processEntries, hre, hrt, hpe, hpt]
    simp [hne]

/-- Witness for C2 on a concrete archive: English `(a, b)`, Russian `(a)`,
so the diff is `(b)` and non-empty. -/
theorem diff_written_iff_missing_witness :
    scanEntries "ru_ru"
        (([⟨"assets/m/lang/en_us.json", [10, 20], PyExcept.ok [("a", "1"), ("b", "2")]⟩,
           ⟨"assets/m/lang/ru_ru.json", [30], PyExcept.ok [("a", "9")]⟩]
          : List JarEntry).map JarEntry.name)
      = (some "assets/m/lang/en_us.json", some "assets/m/lang/ru_ru.json")
    ∧ readEntry
        [⟨"assets/m/lang/en_us.json", [10, 20], PyExcept.ok [("a", "1"), ("b", "2")]⟩,
         ⟨"assets/m/lang/ru_ru.json", [30], PyExcept.ok [("a", "9")]⟩]
        "assets/m/lang/en_us.json"
      = some ⟨"assets/m/lang/en_us.json", [10, 20], PyExcept.ok [("a", "1"), ("b", "2")]⟩
    ∧ readEntry
        [⟨"assets/m/lang/en_us.json", [10, 20], PyExcept.ok [("a", "1"), ("b", "2")]⟩,
         ⟨"assets/m/lang/ru_ru.json", [30], PyExcept.ok [("a", "9")]⟩]
        "assets/m/lang/ru_ru.json"
      = some ⟨"assets/m/lang/ru_ru.json", [30], PyExcept.ok [("a", "9")]⟩
    ∧ ((process_jar_file "mods/m.jar" "ru_ru" (PyExcept.ok ())
          (PyExcept.ok
            [⟨"assets/m/lang/en_us.json", [10, 20], PyExcept.ok [("a", "1"), ("b", "2")]⟩,
             ⟨"assets/m/lang/ru_ru.json", [30], PyExcept.ok [("a", "9")]⟩])
        = PyExcept.ok (processJarAfterMkdir "mods/m.jar" "ru_ru"
            (PyExcept.ok
              [⟨"assets/m/lang/en_us.json", [10, 20], PyExcept.ok [("a", "1"), ("b", "2")]⟩,
               ⟨"assets/m/lang/ru_ru.json", [30], PyExcept.ok [("a", "9")]⟩])))
    ∧ (diffMap [("a", "1"), ("b", "2")] [("a", "9")] = [] →
        (processJarAfterMkdir "mods/m.jar" "ru_ru"
          (PyExcept.ok
            [⟨"assets/m/lang/en_us.json", [10, 20], PyExcept.ok [("a", "1"), ("b", "2")]⟩,
             ⟨"assets/m/lang/ru_ru.json", [30], PyExcept.ok [("a", "9")]⟩])).dir = none)
    ∧ (diffMap [("a", "1"), ("b", "2")] [("a", "9")] ≠ [] →
        (processJarAfterMkdir "mods/m.jar" "ru_ru"
          (PyExcept.ok
            [⟨"assets/m/lang/en_us.json", [10, 20], PyExcept.ok [("a", "1"), ("b", "2")]⟩,
             ⟨"assets/m/lang/ru_ru.json", [30], PyExcept.ok [("a", "9")]⟩])).dir
          = some [("en_us.json", FileData.bytes [10, 20]),
              ("ru_ru" ++ ".json", FileData.bytes [30]),
              ("diff.json", FileData.text (dumpJson (diffMap [("a", "1"), ("b", "2")]
                [("a", "9")])))])
    ∧ (∀ c : Char, 128 ≤ c.toNat → escapeJsonChar c = String.mk [c])) :=
  ⟨by decide, by decide, by decide,
   diff_written_iff_missing "mods/m.jar" "ru_ru"
     "assets/m/lang/en_us.json" "assets/m/lang/ru_ru.json"
     [⟨"assets/m/lang/en_us.json", [10, 20], PyExcept.ok [("a", "1"), ("b", "2")]⟩,
      ⟨"assets/m/lang/ru_ru.json", [30], PyExcept.ok [("a", "9")]⟩]
     ⟨"assets/m/lang/en_us.json", [10, 20], PyExcept.ok [("a", "1"), ("b", "2")]⟩
     ⟨"assets/m/lang/ru_ru.json", [30], PyExcept.ok [("a", "9")]⟩
     [("a", "1"), ("b", "2")] [("a", "9")]
     (by decide) (by decide) (by decide) (by decide) (by decide)⟩

/-- Claim C8: the file `en_us.json` written into `<modId>/` holds exactly
the English entry's raw archive bytes, and `<targetLang>.json` exactly the
target entry's raw bytes; both writes happen before the corresponding
`json.loads`, so they are on disk even when that parse fails:
  * an English parse failure leaves exactly the verbatim `en_us.json`;
  * with no target entry the directory holds exactly the verbatim
    `en_us.json` (whether or not the English bytes parse);
  * a target parse failure leaves exactly the two verbatim copies;
  * a successful run with a non-empty diff keeps both verbatim copies. -/
theorem verbatim_bytes_before_parse (jarPath targetLang enP : String)
    (entries : List JarEntry) (tOpt : Option String) (enE : JarEntry)
    (hscan : scanEntries targetLang (entries.map JarEntry.name) = (some enP, tOpt))
    (hre : readEntry entries enP = some enE) :
    (process_jar_file jarPath targetLang (PyExcept.ok ()) (PyExcept.ok entries)
        = PyExcept.ok (processJarAfterMkdir jarPath targetLang (PyExcept.ok entries)))
    ∧ (∀ m, enE.parsed = PyExcept.raise m →
        (processJarAfterMkdir jarPath targetLang (PyExcept.ok entries)).dir
          = some [("en_us.json", FileData.bytes enE.content)])
    ∧ (tOpt = none →
        (processJarAfterMkdir jarPath targetLang (PyExcept.ok entries)).dir
          = some [("en_us.json", FileData.bytes enE.content)])
    ∧ (∀ tP tE baseM m, tOpt = some tP → readEntry entries tP = some tE →
        enE.parsed = PyExcept.ok baseM → tE.parsed = PyExcept.raise m →
        (processJarAfterMkdir jarPath targetLang (PyExcept.ok entries)).dir
          = some [("en_us.json", FileData.bytes enE.content),
              (targetLang ++ ".json", FileData.bytes tE.content)])
    ∧ (∀ tP tE baseM targetM, tOpt = some tP → readEntry entries tP = some tE →
        enE.parsed = PyExcept.ok baseM → tE.parsed = PyExcept.ok targetM →
        diffMap baseM targetM ≠ [] →
        (processJarAfterMkdir jarPath targetLang (PyExcept.ok entries)).dir
          = some [("en_us.json", FileData.bytes enE.content),
              (targetLang ++ ".json", FileData.bytes tE.content),
              ("diff.json", FileData.text (dumpJson (diffMap baseM targetM)))]) := by
  have hbody : processJarTry (basename jarPath) (splitextBase (basename jarPath))
      targetLang entries
      = processEntries (basename jarPath) (splitextBase (basename jarPath))
          targetLang entries (some enP) tOpt := by
    unfold processJarTry
    rw [hscan]
  refine ⟨rfl, ?_, ?_, ?_, ?_⟩
  · intro m hm
    simp only [processJarAfterMkdir, hbody, processEntries, hre, hm]
  · intro ht
    subst ht
    cases hp : enE.parsed with
    | raise m => simp only [processJarAfterMkdir, hbody, processEntries, hre, hp]
    | ok baseM => simp only [processJarAfterMkdir, hbody, processEntries, hre, hp]
  · intro tP tE baseM m ht hrt hpe hpt
    subst ht
    simp only [processJarAfterMkdir, hbody, processEntries, hre, hrt, hpe, hpt]
  · intro tP tE baseM targetM ht hrt hpe hpt hm
    subst ht
    have hne : (diffMap baseM targetM).isEmpty = false := by
      cases hd2 : diffMap baseM targetM with
      | nil => exact absurd hd2 hm
      | cons a l => rfl
    simp only [processJarAfterMkdir, hbody, processEntries, hre, hrt, hpe, hpt]
    simp [hne]

/-- Witness for C8 on a concrete archive whose only entry is an English file
with unparseable bytes. -/
theorem verbatim_bytes_before_parse_witness :
    scanEntries "ru_ru"
        (([⟨"data/en_us.json", [104, 105], PyExcept.raise "Expecting value"⟩]
          : List JarEntry).map JarEntry.name)
      = (some "data/en_us.json", none)
    ∧ readEntry [⟨"data/en_us.json", [104, 105], PyExcept.raise "Expecting value"⟩]
        "data/en_us.json"
      = some ⟨"data/en_us.json", [104, 105], PyExcept.raise "Expecting value"⟩
    ∧ ((process_jar_file "mods/w.jar" "ru_ru" (PyExcept.ok ())
          (PyExcept.ok [⟨"data/en_us.json", [104, 105], PyExcept.raise "Expecting value"⟩])
        = PyExcept.ok (processJarAfterMkdir "mods/w.jar" "ru_ru"
            (PyExcept.ok [⟨"data/en_us.json", [104, 105],
              PyExcept.raise "Expecting value"⟩])))
    ∧ (∀ m, (⟨"data/en_us.json", [104, 105], PyExcept.raise "Expecting value"⟩
          : JarEntry).parsed = PyExcept.raise m →
        (processJarAfterMkdir "mods/w.jar" "ru_ru"
          (PyExcept.ok [⟨"data/en_us.json", [104, 105],
            PyExcept.raise "Expecting value"⟩])).dir
          = some [("en_us.json", FileData.bytes [104, 105])])
    ∧ ((none : Option String) = none →
        (processJarAfterMkdir "mods/w.jar" "ru_ru"
          (PyExcept.ok [⟨"data/en_us.json", [104, 105],
            PyExcept.raise "Expecting value"⟩])).dir
          = some [("en_us.json", FileData.bytes [104, 105])])
    ∧ (∀ tP tE baseM m, (none : Option String) = some tP →
        readEntry [⟨"data/en_us.json", [104, 105], PyExcept.raise "Expecting value"⟩] tP
          = some tE →
        (⟨"data/en_us.json", [104, 105], PyExcept.raise "Expecting value"⟩
          : JarEntry).parsed = PyExcept.ok baseM →
        tE.parsed = PyExcept.raise m →
        (processJarAfterMkdir "mods/w.jar" "ru_ru"
          (PyExcept.ok [⟨"data/en_us.json", [104, 105],
            PyExcept.raise "Expecting value"⟩])).dir
          = some [("en_us.json", FileData.bytes [104, 105]),
              ("ru_ru" ++ ".json", FileData.bytes tE.content)])
    ∧ (∀ tP tE baseM targetM, (none : Option String) = some tP →
        readEntry [⟨"data/en_us.json", [104, 105], PyExcept.raise "Expecting value"⟩] tP
          = some tE →
        (⟨"data/en_us.json", [104, 105], PyExcept.raise "Expecting value"⟩
          : JarEntry).parsed = PyExcept.ok baseM →
        tE.parsed = PyExcept.ok targetM →
        diffMap baseM targetM ≠ [] →
        (processJarAfterMkdir "mods/w.jar" "ru_ru"
          (PyExcept.ok [⟨"data/en_us.json", [104, 105],
            PyExcept.raise "Expecting value"⟩])).dir
          = some [("en_us.json", FileData.bytes [104, 105]),
              ("ru_ru" ++ ".json", FileData.bytes tE.content),
              ("diff.json", FileData.text (dumpJson (diffMap baseM targetM)))])) :=
  ⟨by decide, by decide,
   verbatim_bytes_before_parse "mods/w.jar" "ru_ru" "data/en_us.json"
     [⟨"data/en_us.json", [104, 105], PyExcept.raise "Expecting value"⟩] none
     ⟨"data/en_us.json", [104, 105], PyExcept.raise "Expecting value"⟩
     (by decide) (by decide)⟩

/-- Claim C9 is false in its parenthetical generalization: `us` is a suffix
of `en_us`, yet with target language `us` an entry `lang/x_us.json` (which
ends with `us.json` but not with `en_us.json`) is retained as the target
entry, and a diff is computed and written. -/
theorem english_suffix_counterexample :
    pyEndsWith "en_us" "us" = true
    ∧ (scanEntries "us" ["lang/en_us.json", "lang/x_us.json"]).2 = some "lang/x_us.json"
    ∧ (processJarAfterMkdir "mods/a.jar" "us"
        (PyExcept.ok [⟨"lang/en_us.json", [1], PyExcept.ok [("a", "1")]⟩,
          ⟨"lang/x_us.json", [2], PyExcept.ok []⟩])).dir
      = some [("en_us.json", FileData.bytes [1]), ("us" ++ ".json", FileData.bytes [2]),
          ("diff.json", FileData.text (dumpJson [("a", "1")]))] := by
  decide

/-- Claim C9 (amended): the English test takes strict precedence in the
scan — an entry whose name ends with `en_us.json` is never recorded as the
target entry — and for the target language code `en_us` itself no target
entry is ever found and no `diff.json` is ever produced. (For a proper
suffix of `en_us`, other entries matching `<targetLang>.json` can still be
retained as the target.) -/
theorem english_precedence_spec (targetLang jarPath : String) (names : List String)
    (entries : List JarEntry) :
    (∀ t, (scanEntries targetLang names).2 = some t → pyEndsWith t "en_us.json" = false)
    ∧ (scanEntries "en_us" names).2 = none
    ∧ (∀ (mk : PyExcept Unit) (out : ProcOutcome) (files : List (String × FileData))
        (fd : FileData),
        process_jar_file jarPath "en_us" mk (PyExcept.ok entries) = PyExcept.ok out →
        out.dir = some files →
        ¬ ("diff.json", fd) ∈ files) := by
  refine ⟨?_, scan_en_us_snd_none names, ?_⟩
  · intro t ht
    rw [scanEntries_eq] at ht
    have hmem := mem_of_getLast?_eq ht
    have hpred := (List.mem_filter.mp hmem).2
    simp only [Bool.and_eq_true] at hpred
    obtain ⟨h1, _⟩ := hpred
    cases hb : pyEndsWith t "en_us.json" with
    | false => rfl
    | true => rw [hb] at h1; simp at h1
  · intro mk out files fd hpf hdir hmem
    have h2 := scan_en_us_snd_none (entries.map JarEntry.name)
    cases mk with
    | raise m => simp [process_jar_file] at hpf
    | ok u =>
        simp only [process_jar_file] at hpf
        injection hpf with hout
        subst hout
        simp only [processJarAfterMkdir, processJarTry] at hdir
        rw [h2] at hdir
        cases hsc : (scanEntries "en_us" (entries.map JarEntry.name)).1 with
        | none =>
            rw [hsc] at hdir
            simp [processEntries] at hdir
        | some enP =>
            rw [hsc] at hdir
            cases hree : readEntry entries enP with
            | none =>
                simp [processEntries, hree] at hdir
                subst hdir
                simp at hmem
            | some enE =>
                cases hp : enE.parsed with
                | raise m =>
                    simp [processEntries, hree, hp] at hdir
                    subst hdir
                    simp at hmem
                | ok baseM =>
                    simp [processEntries, hree, hp] at hdir
                    subst hdir
                    simp at hmem
